import Mathlib

/-!
Verification development for the Telegram trading bot wallet subsystem.

The Python sources are shallowly embedded as Lean functions:

* `services/wallet_manager.py` — seed-phrase generation, the hand-rolled
  SLIP-0010-style ed25519 path derivation (`_ed25519_derive_path`),
  `create_wallet`, `import_wallet`, `get_wallet_private_key`,
  `set_wallet_label`, `_initialize_wallet_slots`.
* `services/data_manager.py` — the persisted per-user profile store:
  `needs_migration`, `migrate_user_data`, `get_user_data`, `set_user_data`,
  `get_primary_wallet`, `get_wallet_slot`, `update_wallet_slot`,
  `delete_wallet_slot`, `get_available_slots`.
* `tenex_trading_bot.py` — the pool allocator `get_available_wallet` and
  `assign_wallet_to_user` (the bot file carries its own copies of
  `needs_migration` / `migrate_user_data`, textually identical to the
  DataManager ones, so one embedding serves both).

Machine integers are `Nat` with explicit `% 256` / bounds where Python
byte conversion matters; Python dictionaries are association lists that
preserve insertion order (Python 3.7+ semantics); raised exceptions are
`Option`/`none`; file persistence (`save_user_wallets`) always reports
success, since file-system failure is outside the model.  HMAC-SHA512
itself is library code (`hmac`/`hashlib`), not code of this repository,
so the derivation is parametric in the `hmacSha512 : Bytes → Bytes → Bytes`
function; every theorem about derivation holds for an arbitrary such
function.
-/

/-- Byte strings are lists of naturals (each byte < 256 where it matters). -/
abbrev Bytes := List Nat

/-- The SLIP-0010 hardened-key flag `0x80000000` added in
`_ed25519_derive_path` (`index += 0x80000000`). -/
def hardenedOffset : Nat := 0x80000000

/-- The ASCII bytes of the HMAC key string `ed25519 seed` used for master-key
generation in `_ed25519_derive_path`. -/
def ed25519SeedKey : Bytes := [101, 100, 50, 53, 53, 49, 57, 32, 115, 101, 101, 100]

/-- The apostrophe character marking a hardened path segment. -/
def apos : Char := Char.ofNat 39

/-- `index.to_bytes(4, 'big')`: big-endian 4-byte encoding; Python raises
`OverflowError` when the value does not fit, modelled as `none`. -/
def be32 (n : Nat) : Option Bytes :=
  if n < 2 ^ 32 then some [n / 2 ^ 24 % 256, n / 2 ^ 16 % 256, n / 2 ^ 8 % 256, n % 256]
  else none

/-- Total big-endian 4-byte encoding (the value of `be32` on in-range input). -/
def be32u (n : Nat) : Bytes := [n / 2 ^ 24 % 256, n / 2 ^ 16 % 256, n / 2 ^ 8 % 256, n % 256]

theorem be32_of_lt {n : Nat} (h : n < 2 ^ 32) : be32 n = some (be32u n) := by
  unfold be32 be32u
  rw [if_pos h]

/-- `path.split('/')` on the character list of `path` (Python `str.split`
with a one-character separator: `''.split('/') = ['']`). -/
def splitSegs : List Char → List (List Char)
  | [] => [[]]
  | c :: rest =>
    match splitSegs rest with
    | [] => [[c]]
    | seg :: more => if c = '/' then [] :: seg :: more else (c :: seg) :: more

/-- Digit-string accumulator for `int(segment)`. -/
def digitsToNat : Nat → List Char → Option Nat
  | acc, [] => some acc
  | acc, c :: rest => if c.isDigit then digitsToNat (acc * 10 + (c.toNat - 48)) rest else none

/-- `int(s)` on a path segment: Python raises `ValueError` (modelled `none`)
unless the string is a number; path segments in this code are plain digit
strings, which is the fragment modelled here. -/
def parseNat (cs : List Char) : Option Nat :=
  match cs with
  | [] => none
  | _ => digitsToNat 0 cs

/-- `cs.endswith(apostrophe)` on the character list. -/
def endsApos : List Char → Bool
  | [] => false
  | [c] => c = apos
  | _ :: c :: rest => endsApos (c :: rest)

/-- A parsed derivation-path segment: hardened flag and raw (unoffset) index. -/
structure Segment where
  hardened : Bool
  index : Nat
deriving DecidableEq

/-- One segment of `_ed25519_derive_path`'s loop body up to the index:
`hardened = segment.endswith "'"`, `index = int(segment[:-1])` when hardened
and `int(segment)` otherwise (`none` = `ValueError` from `int`). -/
def parseSegment (cs : List Char) : Option Segment :=
  let hardened := endsApos cs
  let digits := if hardened then cs.dropLast else cs
  (parseNat digits).map (fun n => ⟨hardened, n⟩)

theorem parseSegment_nil : parseSegment [] = none := rfl

/-- The HMAC-SHA512 step shared by master-key generation and child
derivation, written over an abstract `hmacSha512`:
`I = HMAC-SHA512(chainCode, 0x00 ∥ key ∥ be32u idx)`, new pair
`(I[0:32], I[32:64])`. -/
def slip10Step (hmacSha512 : Bytes → Bytes → Bytes) (kc : Bytes × Bytes) (idx : Nat) :
    Bytes × Bytes :=
  let I := hmacSha512 kc.2 (0 :: kc.1 ++ be32u idx)
  (I.take 32, I.drop 32)

/-- The child-key-derivation body of `_ed25519_derive_path`'s loop:
offset the index when the segment is hardened, encode it big-endian
(Python would raise on overflow), and run the HMAC step. -/
def ckdStep (hmacSha512 : Bytes → Bytes → Bytes) (kc : Bytes × Bytes) (seg : Segment) :
    Option (Bytes × Bytes) :=
  let index := if seg.hardened then seg.index + hardenedOffset else seg.index
  (be32 index).map (fun ib =>
    let I := hmacSha512 kc.2 (0 :: kc.1 ++ ib)
    (I.take 32, I.drop 32))

/-- The `for segment in segments` loop of `_ed25519_derive_path`:
empty segments are skipped (`continue`), any parse or overflow failure
propagates as an exception (`none`). -/
def deriveSegments (hmacSha512 : Bytes → Bytes → Bytes) :
    Bytes × Bytes → List (List Char) → Option (Bytes × Bytes)
  | kc, [] => some kc
  | kc, s :: rest =>
    if s = [] then deriveSegments hmacSha512 kc rest
    else
      match parseSegment s with
      | none => none
      | some seg =>
        match ckdStep hmacSha512 kc seg with
        | none => none
        | some kc2 => deriveSegments hmacSha512 kc2 rest

/-- `WalletManager._ed25519_derive_path(path, seed)`: master
`I = HMAC-SHA512("ed25519 seed", seed)`, `key = I[0:32]`,
`chainCode = I[32:64]`; the path must start with `m/` (else `ValueError`);
the remaining characters are split on `/` and folded by the CKD loop; the
final `key` is returned. -/
def ed25519_derive_path (hmacSha512 : Bytes → Bytes → Bytes) (path : List Char) (seed : Bytes) :
    Option Bytes :=
  let master := hmacSha512 ed25519SeedKey seed
  match path with
  | 'm' :: '/' :: rest =>
    (deriveSegments hmacSha512 (master.take 32, master.drop 32) (splitSegs rest)).map Prod.fst
  | _ => none

/-- `parseSegment` mapped over a whole segment list; fails if any segment
fails (in particular on empty segments). -/
def parseAll : List (List Char) → Option (List Segment)
  | [] => some []
  | s :: rest =>
    match parseSegment s with
    | none => none
    | some seg => (parseAll rest).map (seg :: ·)

/-- Modelled from the spec words (§4.2, Ed25519Strategy): master
`I = HMAC-SHA512("ed25519 seed", seed)`; for each (hardened) segment index
`i`, `I = HMAC-SHA512(chainCode, 0x00 ∥ key ∥ be32(i + 0x80000000))`,
updating `(key, chainCode)` from the halves; result is the final key. -/
def slip10SpecDerive (hmacSha512 : Bytes → Bytes → Bytes) (idxs : List Nat) (seed : Bytes) :
    Bytes :=
  let I := hmacSha512 ed25519SeedKey seed
  (idxs.foldl (fun kc i => slip10Step hmacSha512 kc (i + hardenedOffset))
    (I.take 32, I.drop 32)).1

/-- The effective (post-offset) index of a segment. -/
def segIdx (s : Segment) : Nat :=
  if s.hardened then s.index + hardenedOffset else s.index

theorem deriveSegments_eq_fold (hmacSha512 : Bytes → Bytes → Bytes)
    (segs : List (List Char)) (parsed : List Segment) (kc : Bytes × Bytes)
    (hp : parseAll segs = some parsed)
    (hlt : ∀ s ∈ parsed, segIdx s < 2 ^ 32) :
    deriveSegments hmacSha512 kc segs
      = some (parsed.foldl (fun a s => slip10Step hmacSha512 a (segIdx s)) kc) := by
  induction segs generalizing parsed kc with
  | nil =>
    simp only [parseAll, Option.some.injEq] at hp
    subst hp
    simp [deriveSegments]
  | cons s rest ih =>
    by_cases hs : s = []
    · subst hs
      simp [parseAll, parseSegment_nil] at hp
    · simp only [parseAll] at hp
      cases hps : parseSegment s with
      | none => simp [hps] at hp
      | some seg =>
        simp only [hps] at hp
        cases hpr : parseAll rest with
        | none => simp [hpr] at hp
        | some parsedRest =>
          simp only [hpr, Option.map_some', Option.some.injEq] at hp
          subst hp
          have hseg : segIdx seg < 2 ^ 32 := hlt seg (List.mem_cons_self _ _)
          have hrest : ∀ t ∈ parsedRest, segIdx t < 2 ^ 32 :=
            fun t ht => hlt t (List.mem_cons_of_mem _ ht)
          simp only [deriveSegments, if_neg hs, hps]
          have hck : ckdStep hmacSha512 kc seg
              = some (slip10Step hmacSha512 kc (segIdx seg)) := by
            simp [ckdStep, segIdx, slip10Step, be32_of_lt, hseg, be32u]
            rw [be32_of_lt]
            · simp [be32u, slip10Step]
            · simpa [segIdx] using hseg
          rw [hck]
          simp only [List.foldl_cons]
          exact ih parsedRest _ hpr hrest

/-- The `(key, chainCode)` pair keeps 32-byte components through the fold
whenever `hmacSha512` always returns 64 bytes. -/
theorem fold_key_length (hmacSha512 : Bytes → Bytes → Bytes)
    (hh : ∀ k d, (hmacSha512 k d).length = 64)
    (idxs : List Nat) (kc : Bytes × Bytes) (hkc : kc.1.length = 32) :
    (idxs.foldl (fun a i => slip10Step hmacSha512 a (i + hardenedOffset)) kc).1.length = 32 := by
  induction idxs generalizing kc with
  | nil => simpa using hkc
  | cons i rest ih =>
    simp only [List.foldl_cons]
    apply ih
    simp [slip10Step, hh]

/-- A concrete stand-in for HMAC-SHA512 used to instantiate the parametric
theorems on executable inputs: always returns 64 bytes. -/
def demoHmac : Bytes → Bytes → Bytes :=
  fun k d => (List.range 64).map (fun i => (k.length + 2 * d.length + i) % 256)

/-- A concrete 64-byte seed. -/
def demoSeed : Bytes := List.replicate 64 7

/-- The characters of the Solana path after `m/`: `44'/501'/0'/0'`. -/
def demoSolanaRest : List Char :=
  ['4', '4', apos, '/', '5', '0', '1', apos, '/', '0', apos, '/', '0', apos]

/-- C1: for every 64-byte seed and every derivation path of hardened
segments, `_ed25519_derive_path` computes exactly the SLIP-0010 chain of
the specification — master `I = HMAC-SHA512("ed25519 seed", seed)` with
`key = I[0:32]`, `chainCode = I[32:64]`, then per segment
`index' = index + 0x80000000` and
`I = HMAC-SHA512(chainCode, 0x00 ∥ key ∥ be32(index'))` — returning the
final 32-byte key; being a pure function of `(path, seed)`, the result is
the same on every call. -/
theorem ed25519_derivation_matches_slip10 (hmacSha512 : Bytes → Bytes → Bytes)
    (seed : Bytes) (rest : List Char) (idxs : List Nat)
    (hseed : seed.length = 64)
    (hh : ∀ k d, (hmacSha512 k d).length = 64)
    (hp : parseAll (splitSegs rest) = some (idxs.map (fun i => ⟨true, i⟩)))
    (hlt : ∀ i ∈ idxs, i < 2 ^ 31) :
    ed25519_derive_path hmacSha512 ('m' :: '/' :: rest) seed
        = some (slip10SpecDerive hmacSha512 idxs seed)
      ∧ (slip10SpecDerive hmacSha512 idxs seed).length = 32
      ∧ ed25519_derive_path hmacSha512 ('m' :: '/' :: rest) seed
        = ed25519_derive_path hmacSha512 ('m' :: '/' :: rest) seed := by
  have hlt' : ∀ s ∈ idxs.map (fun i => Segment.mk true i), segIdx s < 2 ^ 32 := by
    intro s hs
    rcases List.mem_map.1 hs with ⟨i, hi, rfl⟩
    have : i < 2 ^ 31 := hlt i hi
    simp only [segIdx, hardenedOffset, if_pos]
    omega
  refine ⟨?_, ?_, rfl⟩
  · have hfold := deriveSegments_eq_fold hmacSha512 (splitSegs rest)
      (idxs.map (fun i => ⟨true, i⟩))
      ((hmacSha512 ed25519SeedKey seed).take 32, (hmacSha512 ed25519SeedKey seed).drop 32)
      hp hlt'
    simp only [ed25519_derive_path]
    rw [hfold]
    simp [slip10SpecDerive, List.foldl_map, segIdx]
  · unfold slip10SpecDerive
    apply fold_key_length hmacSha512 hh
    simp [hh]

/-- Witness for C1 at the concrete Solana path `m/44'/501'/0'/0'`,
`demoHmac` and `demoSeed`. -/
theorem ed25519_derivation_matches_slip10_witness :
    demoSeed.length = 64
      ∧ parseAll (splitSegs demoSolanaRest)
          = some ([44, 501, 0, 0].map (fun i => ⟨true, i⟩))
      ∧ (∀ i ∈ [44, 501, 0, 0], i < 2 ^ 31)
      ∧ ed25519_derive_path demoHmac ('m' :: '/' :: demoSolanaRest) demoSeed
          = some (slip10SpecDerive demoHmac [44, 501, 0, 0] demoSeed) :=
  ⟨by decide, by decide, by decide,
    (ed25519_derivation_matches_slip10 demoHmac demoSeed demoSolanaRest [44, 501, 0, 0]
      (by decide) (fun k d => by simp [demoHmac]) (by decide) (by decide)).1⟩

/-- The characters of the path `m/0` after `m/`: a single non-hardened
segment. -/
def demoNonHardenedRest : List Char := ['0']

/-- C5 counterexample: on the path `m/0`, whose only segment is
non-hardened, `_ed25519_derive_path` returns a derived key instead of
failing — there is no `UnsupportedDerivationError` in the code. -/
theorem ed25519_nonhardened_returns_key :
    (ed25519_derive_path demoHmac ('m' :: '/' :: demoNonHardenedRest) demoSeed).isSome
      = true := by
  decide

/-- C5 amended: for a path containing non-hardened segments,
`_ed25519_derive_path` does not fail; it runs the same HMAC construction
using the raw index (without the `0x80000000` offset) for each
non-hardened segment and returns the resulting key. -/
theorem ed25519_nonhardened_derives (hmacSha512 : Bytes → Bytes → Bytes)
    (seed : Bytes) (rest : List Char) (parsed : List Segment)
    (hp : parseAll (splitSegs rest) = some parsed)
    (hlt : ∀ s ∈ parsed, segIdx s < 2 ^ 32) :
    ed25519_derive_path hmacSha512 ('m' :: '/' :: rest) seed
      = some ((parsed.foldl (fun a s => slip10Step hmacSha512 a (segIdx s))
          ((hmacSha512 ed25519SeedKey seed).take 32,
           (hmacSha512 ed25519SeedKey seed).drop 32)).1) := by
  simp only [ed25519_derive_path]
  rw [deriveSegments_eq_fold hmacSha512 (splitSegs rest) parsed _ hp hlt]
  simp

/-- Witness for the amended C5 at the concrete non-hardened path `m/0`. -/
theorem ed25519_nonhardened_derives_witness :
    parseAll (splitSegs demoNonHardenedRest) = some [⟨false, 0⟩]
      ∧ (∀ s ∈ [(⟨false, 0⟩ : Segment)], segIdx s < 2 ^ 32)
      ∧ ed25519_derive_path demoHmac ('m' :: '/' :: demoNonHardenedRest) demoSeed
          = some (([(⟨false, 0⟩ : Segment)].foldl
              (fun a s => slip10Step demoHmac a (segIdx s))
              ((demoHmac ed25519SeedKey demoSeed).take 32,
               (demoHmac ed25519SeedKey demoSeed).drop 32)).1) :=
  ⟨by decide, by decide,
    ed25519_nonhardened_derives demoHmac demoSeed demoNonHardenedRest [⟨false, 0⟩]
      (by decide) (by decide)⟩

/-!
## The persisted data model

Python dictionaries are modelled as insertion-ordered association lists
with unique keys in every reachable state.  `dget` is `d.get(k)` /
`d[k]`, `dhas` is `k in d`, `dset` is `d[k] = v` (update in place when
the key exists, append otherwise — CPython 3.7+ ordering), `dkeys` is
`list(d)`.
-/

/-- Insertion-ordered string-keyed dictionary. -/
abbrev Dict (α : Type) := List (String × α)

/-- `d.get(k)`: the value at the first occurrence of key `k`. -/
def dget {α : Type} : Dict α → String → Option α
  | [], _ => none
  | (k, v) :: rest, key => if k = key then some v else dget rest key

/-- `k in d`. -/
def dhas {α : Type} (d : Dict α) (key : String) : Bool :=
  (dget d key).isSome

/-- `d[k] = v`: replace in place if present, append otherwise. -/
def dset {α : Type} : Dict α → String → α → Dict α
  | [], key, v => [(key, v)]
  | (k, w) :: rest, key, v =>
    if k = key then (key, v) :: rest else (k, w) :: dset rest key v

/-- `list(d)`: the keys in order. -/
def dkeys {α : Type} (d : Dict α) : List String := d.map Prod.fst

theorem dget_dset_self {α : Type} (d : Dict α) (k : String) (v : α) :
    dget (dset d k v) k = some v := by
  induction d with
  | nil => simp [dget, dset]
  | cons p rest ih =>
    obtain ⟨k', w⟩ := p
    by_cases h : k' = k
    · simp [dset, dget, h]
    · simp [dset, dget, h, ih]

theorem dget_dset_ne {α : Type} (d : Dict α) (k k' : String) (v : α) (h : k' ≠ k) :
    dget (dset d k v) k' = dget d k' := by
  have hk : k ≠ k' := Ne.symm h
  induction d with
  | nil => simp [dget, dset, hk]
  | cons p rest ih =>
    obtain ⟨k0, w⟩ := p
    by_cases h0 : k0 = k
    · subst h0
      simp [dset, dget, hk]
    · by_cases h1 : k0 = k'
      · simp [dset, dget, h0, h1, h]
      · simp [dset, dget, h0, h1, ih]

theorem dkeys_dset_of_dhas {α : Type} (d : Dict α) (k : String) (v : α)
    (h : dhas d k = true) : dkeys (dset d k v) = dkeys d := by
  induction d with
  | nil => simp [dhas, dget] at h
  | cons p rest ih =>
    obtain ⟨k0, w⟩ := p
    by_cases h0 : k0 = k
    · simp [dset, dkeys, h0]
    · have : dhas rest k = true := by
        simpa [dhas, dget, h0] using h
      simp [dset, dkeys, h0]
      simpa [dkeys] using ih this

theorem dhas_of_dget {α : Type} {d : Dict α} {k : String} {v : α}
    (h : dget d k = some v) : dhas d k = true := by
  simp [dhas, h]

/-- One chain's wallet record inside a slot (`slot_data['chains'][network]`
or a legacy `wallets[network]` entry).  Keys that a given writer does not
put in the dict are the defaulted fields (`none` / `false`). -/
structure ChainWallet where
  address : String
  private_key : String
  derivation_path : String
  derivation_index : Option Nat := none
  created_at : Option String := none
  seed_phrase : Option String := none
  imported : Bool := false
deriving DecidableEq

/-- One wallet slot (`user_data['wallet_slots'][slot_name]`).  The empty
dict `{}` that `wallet_slots.get(slot_name, {})` can produce is the record
with every field at its default. -/
structure WalletSlot where
  label : Option String := none
  created_at : Option String := none
  is_primary : Bool := false
  chains : Dict ChainWallet := []
deriving DecidableEq

/-- One user profile (`self.user_wallets[user_id_str]`).  `wallets` is the
legacy single-wallet map; `old_wallets`, `migrated`, `migrated_at` are the
`_old_wallets` / `_migrated` / `_migrated_at` backup keys written by
migration.  `none` on an `Option` field models the key being absent. -/
structure UserData where
  primary_wallet : Option String := none
  wallet_slots : Option (Dict WalletSlot) := none
  wallets : Option (Dict ChainWallet) := none
  old_wallets : Option (Dict ChainWallet) := none
  migrated : Bool := false
  migrated_at : Option String := none
deriving DecidableEq

/-- The whole persisted store `self.user_wallets`
(`user_id string → user data`). -/
abbrev Store := Dict UserData

/-- Python truthiness of an optional string (`None` and `''` are falsy). -/
def truthyStr (o : Option String) : Bool :=
  match o with
  | none => false
  | some s => !(s == "")

/-!
## DataManager (services/data_manager.py)

`save_user_wallets` (whole-file JSON rewrite) is modelled as always
succeeding; `now` stands for `datetime.datetime.now().isoformat()` at the
moment of the call.  The DataManager methods and the textually identical
copies in `tenex_trading_bot.py` share one embedding.
-/

/-- `DataManager.needs_migration`: old format has `wallets` but not
`wallet_slots`. -/
def needs_migration (st : Store) (uid : String) : Bool :=
  match dget st uid with
  | none => false
  | some ud => ud.wallets.isSome && ud.wallet_slots.isNone

/-- `f'wallet{i}'`. -/
def slotName (i : Nat) : String := "wallet" ++ toString i

/-- The empty slots `wallet2 … wallet{max_slots}` created by migration
(`range(2, max_slots + 1)`); each is the all-default slot record. -/
def initEmptySlots (maxSlots : Nat) : Dict WalletSlot :=
  (List.range' 2 (maxSlots - 1)).map (fun i => (slotName i, ({} : WalletSlot)))

/-- The replacement profile written by migration: legacy chains moved into
`wallet1`, empty `wallet2 … walletN`, backup under `_old_wallets`,
`_migrated` flags set, and no legacy `wallets` key. -/
def migratedProfile (maxSlots : Nat) (now : String) (w : Dict ChainWallet) : UserData :=
  { primary_wallet := some "wallet1",
    wallet_slots := some (("wallet1",
      ({ label := none, created_at := some now, is_primary := true,
         chains := w } : WalletSlot)) :: initEmptySlots maxSlots),
    wallets := none, old_wallets := some w, migrated := true,
    migrated_at := some now }

/-- `DataManager.migrate_user_data`: move the legacy `wallets` map into
`wallet1`, create empty `wallet2 … walletN`, keep the backup under
`_old_wallets`, set `_migrated`, replace the profile, save. -/
def migrate_user_data (maxSlots : Nat) (now : String) (st : Store) (uid : String) :
    Store × Bool :=
  match dget st uid with
  | none => (st, false)
  | some ud =>
    match ud.wallets with
    | none => (st, false)
    | some w => (dset st uid (migratedProfile maxSlots now w), true)

/-- `DataManager.get_user_data`: auto-migrate when needed, then return the
profile (or `{}`); the possibly-updated store is threaded through. -/
def get_user_data (maxSlots : Nat) (now : String) (st : Store) (uid : String) :
    Store × UserData :=
  let st1 := if needs_migration st uid then (migrate_user_data maxSlots now st uid).1 else st
  (st1, (dget st1 uid).getD {})

/-- `DataManager.set_user_data`: store the profile and save. -/
def set_user_data (st : Store) (uid : String) (d : UserData) : Store × Bool :=
  (dset st uid d, true)

/-- `DataManager.get_primary_wallet`. -/
def get_primary_wallet (maxSlots : Nat) (now : String) (st : Store) (uid : String) :
    Store × Option String :=
  let r := get_user_data maxSlots now st uid
  (r.1, r.2.primary_wallet)

/-- `DataManager.get_wallet_slot`. -/
def get_wallet_slot (maxSlots : Nat) (now : String) (st : Store) (uid slot_name : String) :
    Store × Option WalletSlot :=
  let r := get_user_data maxSlots now st uid
  (r.1,
    match r.2.wallet_slots with
    | some ws => dget ws slot_name
    | none => none)

/-- `get_wallet_slot` when the caller's `slot_name` may be Python `None`
(`dict.get(None)` finds nothing, since no key is `None`). -/
def get_wallet_slot_opt (maxSlots : Nat) (now : String) (st : Store) (uid : String)
    (slot_name? : Option String) : Store × Option WalletSlot :=
  match slot_name? with
  | some s => get_wallet_slot maxSlots now st uid s
  | none => ((get_user_data maxSlots now st uid).1, none)

/-- `DataManager.update_wallet_slot`: write the slot (creating the
`wallet_slots` map when missing) and save. -/
def update_wallet_slot (maxSlots : Nat) (now : String) (st : Store)
    (uid slot_name : String) (sd : WalletSlot) : Store × Bool :=
  let r := get_user_data maxSlots now st uid
  let ws := r.2.wallet_slots.getD []
  set_user_data r.1 uid { r.2 with wallet_slots := some (dset ws slot_name sd) }

/-- `DataManager.delete_wallet_slot`: reset the slot (never remove the
key); when the deleted slot was primary, point `primary_wallet` back at
`wallet1` and flag it — Python raises `KeyError` (`none`) if `wallet1` is
absent there. -/
def delete_wallet_slot (maxSlots : Nat) (now : String) (st : Store)
    (uid slot_name : String) : Option (Store × Bool) :=
  let r := get_user_data maxSlots now st uid
  let ud := r.2
  match ud.wallet_slots with
  | none => some (r.1, false)
  | some ws =>
    if dhas ws slot_name then
      let ws2 := dset ws slot_name {}
      if ud.primary_wallet == some slot_name then
        match dget ws2 "wallet1" with
        | none => none
        | some w1 =>
          let ws3 := dset ws2 "wallet1" { w1 with is_primary := true }
          some (set_user_data r.1 uid
            { ud with primary_wallet := some "wallet1", wallet_slots := some ws3 })
      else some (set_user_data r.1 uid { ud with wallet_slots := some ws2 })
    else some (r.1, false)

/-- `DataManager.get_available_slots`: names of slots whose `chains` is
empty (Python falsiness of the dict). -/
def get_available_slots (maxSlots : Nat) (now : String) (st : Store) (uid : String) :
    Store × List String :=
  let r := get_user_data maxSlots now st uid
  match r.2.wallet_slots with
  | none => (r.1, [])
  | some ws => (r.1, (ws.filter (fun q => q.2.chains.isEmpty)).map Prod.fst)

/-- The bot's `get_primary_wallet` (`tenex_trading_bot.py`), which defaults
to `wallet1` instead of returning `None`. -/
def tenex_get_primary_wallet (maxSlots : Nat) (now : String) (st : Store) (uid : String) :
    Store × String :=
  let r := get_user_data maxSlots now st uid
  (r.1, r.2.primary_wallet.getD "wallet1")

/-!
## WalletPoolAllocator and pool-based assignment (tenex_trading_bot.py)
-/

/-- One row of a chain's pre-generated wallet CSV
(`Address`, `Private Key`, `Derivation Path`). -/
structure PoolEntry where
  address : String
  private_key : String
  derivation_path : String
deriving DecidableEq

/-- The address a single chain map contributes for `network`: the
`.address` of its record, when present (`if network in chains: add`). -/
def chainAddr (network : String) (c : Dict ChainWallet) : List String :=
  match dget c network with
  | some cw => [cw.address]
  | none => []

/-- The addresses one profile contributes to the assigned set in
`get_available_wallet`: its legacy `wallets[network]` entry (old format)
and every `wallet_slots[*].chains[network]` entry (new format). -/
def profile_assigned (network : String) (ud : UserData) : List String :=
  (match ud.wallets with
   | some w => chainAddr network w
   | none => []) ++
  (match ud.wallet_slots with
   | some ws => ws.flatMap (fun q => chainAddr network q.2.chains)
   | none => [])

/-- The set of already-assigned addresses for a chain, as collected by the
scan over `self.user_wallets.values()` (a Python `set`; only membership
matters, so a list suffices). -/
def assigned_addresses (network : String) (st : Store) : List String :=
  st.flatMap (fun p => profile_assigned network p.2)

/-- `get_available_wallet(network)`: the first pool row whose address is
not in the assigned set, or `None` when the pool is exhausted.  The pool
list stands for the parsed CSV rows of the (existing) wallet file. -/
def get_available_wallet (network : String) (pool : List PoolEntry) (st : Store) :
    Option PoolEntry :=
  pool.find? (fun w => !((assigned_addresses network st).contains w.address))

/-- The slot record written by `assign_wallet_to_user` when it has to
initialize a missing slot. -/
def assignInitSlot (now : String) (isPrim : Bool) : WalletSlot :=
  { label := none, created_at := some now, is_primary := isPrim, chains := [] }

/-- The fresh profile `assign_wallet_to_user` builds for a brand-new user:
`primary_wallet = wallet1` and all of `wallet1 … walletN` empty, with
`is_primary` true exactly on `wallet1`. -/
def assignInitProfile (maxSlots : Nat) : UserData :=
  { primary_wallet := some "wallet1",
    wallet_slots := some ((List.range' 1 maxSlots).map (fun i =>
      (slotName i, ({ is_primary := slotName i == "wallet1" } : WalletSlot)))) }

/-- `assign_wallet_to_user(user_id, network, slot_name)`: auto-migrate,
default the slot to the bot's primary, reject when the `(slot, chain)`
pair is populated, draw the first free pool entry, initialize the profile
or the slot when missing, stamp `created_at` when the slot had no chains,
write the pool entry into `chains[network]`, save.  The outer `none`
models the uncaught `KeyError` when an existing profile has no
`wallet_slots` key. -/
def assign_wallet_to_user (maxSlots : Nat) (now : String) (pool : List PoolEntry)
    (network : String) (st : Store) (uid : String) (slot_name? : Option String) :
    Option (Store × Option PoolEntry) :=
  let st1 := if needs_migration st uid then (migrate_user_data maxSlots now st uid).1 else st
  let slot_name :=
    match slot_name? with
    | some s => s
    | none => ((dget st1 uid).getD {}).primary_wallet.getD "wallet1"
  let dup :=
    match dget st1 uid with
    | none => false
    | some ud =>
      match dget (ud.wallet_slots.getD []) slot_name with
      | some sd => dhas sd.chains network
      | none => false
  if dup then some (st1, none)
  else
    match get_available_wallet network pool st1 with
    | none => some (st1, none)
    | some w =>
      let st2 := if dhas st1 uid then st1 else dset st1 uid (assignInitProfile maxSlots)
      match dget st2 uid with
      | none => none
      | some ud =>
        match ud.wallet_slots with
        | none => none
        | some ws =>
          let primary := ud.primary_wallet.getD "wallet1"
          let ws1 :=
            if dhas ws slot_name then ws
            else dset ws slot_name (assignInitSlot now (slot_name == primary))
          match dget ws1 slot_name with
          | none => none
          | some sd =>
            let sd1 := if sd.chains.isEmpty then { sd with created_at := some now } else sd
            let cw : ChainWallet :=
              { address := w.address, private_key := w.private_key,
                derivation_path := w.derivation_path }
            let sd2 := { sd1 with chains := dset sd1.chains network cw }
            some (dset st2 uid { ud with wallet_slots := some (dset ws1 slot_name sd2) },
              some w)

/-!
## WalletManager (services/wallet_manager.py)

`generate_seed_phrase` and `derive_address_from_seed` call into the
`bip_utils` / `solders` / `eth_account` libraries, which are not code of
this repository; they enter the embedding as the oracle parameters
`gen` (mnemonic generation per requested word count, `none` = the caught
exception) and `derive` (seed phrase × network to address info, `none` =
failed validation/derivation).
-/

/-- `WalletManager.generate_seed_phrase(word_count)`: pick 12 words only
when `word_count == 12`, otherwise 24, and run the generator. -/
def generate_seed_phrase (gen : Nat → Option (List String)) (word_count : Nat) :
    Option (List String) :=
  let words_num := if word_count = 12 then 12 else 24
  gen words_num

/-- What `derive_address_from_seed` returns (the keys `create_wallet` and
`import_wallet` read from it). -/
structure DeriveInfo where
  address : String
  private_key : String
  derivation_path : String
deriving DecidableEq

/-- The dict `create_wallet` returns on success. -/
structure CreateResult where
  slot_name : String
  network : String
  address : String
  derivation_path : String
  seed_phrase : String
deriving DecidableEq

/-- The dict `import_wallet` returns on success (no seed phrase). -/
structure ImportResult where
  slot_name : String
  network : String
  address : String
  derivation_path : String
deriving DecidableEq

/-- `WalletManager._initialize_wallet_slots`: `wallet1 … walletN`
(`range(1, max_slots + 1)`), each the all-default slot record. -/
def initialize_wallet_slots (maxSlots : Nat) : Dict WalletSlot :=
  (List.range' 1 maxSlots).map (fun i => (slotName i, ({} : WalletSlot)))

/-- The chain record `create_wallet` writes into
`slot_data['chains'][network]`: note the plaintext `seed_phrase` and the
absent `imported` flag. -/
def created_chain_wallet (info : DeriveInfo) (now seed_phrase : String) : ChainWallet :=
  { address := info.address, private_key := info.private_key,
    derivation_path := info.derivation_path, derivation_index := some 0,
    created_at := some now, seed_phrase := some seed_phrase, imported := false }

/-- The chain record `import_wallet` writes: same fields plus
`imported = True`. -/
def imported_chain_wallet (info : DeriveInfo) (now seed_phrase : String) : ChainWallet :=
  { created_chain_wallet info now seed_phrase with imported := true }

/-- `WalletManager.create_wallet(user_id, network, slot_name)`:
resolve a falsy `slot_name` to the first available slot (failing when none
is free), generate a seed phrase, derive index 0, then write the chain
record into the slot — overwriting whatever `chains[network]` held —
stamp `created_at` when unset, make the slot primary when the profile has
no primary, and save. -/
def create_wallet (maxSlots : Nat) (now : String) (genSeed : Option String)
    (derive : String → String → Option DeriveInfo)
    (st : Store) (uid network : String) (slot_name? : Option String) :
    Store × Option CreateResult :=
  let step1 : Store × Option String :=
    if truthyStr slot_name? then (st, slot_name?)
    else
      let r := get_available_slots maxSlots now st uid
      match r.2 with
      | [] => (r.1, none)
      | s :: _ => (r.1, some s)
  match step1.2 with
  | none => (step1.1, none)
  | some slot_name =>
    match genSeed with
    | none => (step1.1, none)
    | some seed_phrase =>
      match derive seed_phrase network with
      | none => (step1.1, none)
      | some info =>
        let r := get_user_data maxSlots now step1.1 uid
        let ud := r.2
        let ws :=
          match ud.wallet_slots with
          | some ws => ws
          | none => initialize_wallet_slots maxSlots
        let sd := (dget ws slot_name).getD {}
        let sd1 := { sd with
          chains := dset sd.chains network (created_chain_wallet info now seed_phrase) }
        let sd2 := if truthyStr sd1.created_at then sd1 else { sd1 with created_at := some now }
        let setPrim := !(truthyStr ud.primary_wallet)
        let sd3 := if setPrim then { sd2 with is_primary := true } else sd2
        let ud1 := { ud with
          wallet_slots := some (dset ws slot_name sd3),
          primary_wallet := if setPrim then some slot_name else ud.primary_wallet }
        ((set_user_data r.1 uid ud1).1,
         some { slot_name := slot_name, network := network, address := info.address,
                derivation_path := info.derivation_path, seed_phrase := seed_phrase })

/-- Python `str.lower` restricted to the ASCII range used here. -/
def pyLower (s : String) : String := String.mk (s.data.map Char.toLower)

/-- Python slicing `s[:n]`. -/
def pySlice (s : String) (n : Nat) : String := String.mk (s.data.take n)

/-- ASCII whitespace for `str.strip`. -/
def isSpace (c : Char) : Bool := c = ' ' || c = '\t' || c = '\n' || c = '\r'

/-- Python `str.strip()` (ASCII whitespace). -/
def pyStrip (s : String) : String :=
  String.mk (((s.data.dropWhile isSpace).reverse.dropWhile isSpace).reverse)

/-- `WalletManager.import_wallet(user_id, network, seed_phrase, slot_name)`:
derive index 0 from the stripped phrase first, then resolve the slot and
write the record exactly as `create_wallet` does, except that the record
carries `imported = True` and the stripped input phrase. -/
def import_wallet (maxSlots : Nat) (now : String)
    (derive : String → String → Option DeriveInfo)
    (st : Store) (uid network seed_phrase : String) (slot_name? : Option String) :
    Store × Option ImportResult :=
  match derive (pyStrip seed_phrase) network with
  | none => (st, none)
  | some info =>
    let step1 : Store × Option String :=
      if truthyStr slot_name? then (st, slot_name?)
      else
        let r := get_available_slots maxSlots now st uid
        match r.2 with
        | [] => (r.1, none)
        | s :: _ => (r.1, some s)
    match step1.2 with
    | none => (step1.1, none)
    | some slot_name =>
      let r := get_user_data maxSlots now step1.1 uid
      let ud := r.2
      let ws :=
        match ud.wallet_slots with
        | some ws => ws
        | none => initialize_wallet_slots maxSlots
      let sd := (dget ws slot_name).getD {}
      let sd1 := { sd with
        chains := dset sd.chains network (imported_chain_wallet info now (pyStrip seed_phrase)) }
      let sd2 := if truthyStr sd1.created_at then sd1 else { sd1 with created_at := some now }
      let setPrim := !(truthyStr ud.primary_wallet)
      let sd3 := if setPrim then { sd2 with is_primary := true } else sd2
      let ud1 := { ud with
        wallet_slots := some (dset ws slot_name sd3),
        primary_wallet := if setPrim then some slot_name else ud.primary_wallet }
      ((set_user_data r.1 uid ud1).1,
       some { slot_name := slot_name, network := network, address := info.address,
              derivation_path := info.derivation_path })

/-- `WalletManager.get_wallet_private_key(user_id, network, slot_name)`:
default a falsy slot name to the primary slot, look the slot up, and read
`chains[network]['private_key']`; reachable slot records always carry
their four keys, so Python's `not slot_data or 'chains' not in slot_data`
is the `none` case here. -/
def get_wallet_private_key (maxSlots : Nat) (now : String) (st : Store)
    (uid network : String) (slot_name? : Option String) : Store × Option String :=
  let step1 : Store × Option String :=
    if truthyStr slot_name? then (st, slot_name?)
    else get_primary_wallet maxSlots now st uid
  let r := get_wallet_slot_opt maxSlots now step1.1 uid step1.2
  match r.2 with
  | none => (r.1, none)
  | some sd =>
    match dget sd.chains network with
    | none => (r.1, none)
    | some cw => (r.1, some cw.private_key)

/-- `WalletManager.set_wallet_label(user_id, slot_name, label)`: `False`
when the slot is missing; clear the label on the literal `clear`
(case-insensitive) or a falsy (empty) label, else store `label[:30]`;
persist through `update_wallet_slot`. -/
def set_wallet_label (maxSlots : Nat) (now : String) (st : Store)
    (uid slot_name label : String) : Store × Bool :=
  let r := get_wallet_slot maxSlots now st uid slot_name
  match r.2 with
  | none => (r.1, false)
  | some sd =>
    let sd1 :=
      if pyLower label == "clear" || label == "" then { sd with label := none }
      else { sd with label := some (pySlice label 30) }
    update_wallet_slot maxSlots now r.1 uid slot_name sd1

/-!
## Helper lemmas and claim theorems
-/

theorem needs_migration_eq_false {st : Store} {uid : String} {ud : UserData}
    {ws : Dict WalletSlot} (hud : dget st uid = some ud)
    (hws : ud.wallet_slots = some ws) : needs_migration st uid = false := by
  simp [needs_migration, hud, hws]

theorem get_user_data_of_not_mig {maxSlots : Nat} {now : String} {st : Store}
    {uid : String} (h : needs_migration st uid = false) :
    get_user_data maxSlots now st uid = (st, (dget st uid).getD {}) := by
  simp [get_user_data, h]

/-- A lookup accessor over the final state: the chain record stored for
`(user, slot, network)`, when every level is present. -/
def storedChain (st : Store) (uid slot network : String) : Option ChainWallet :=
  match dget st uid with
  | some ud =>
    match ud.wallet_slots with
    | some ws =>
      match dget ws slot with
      | some sd => dget sd.chains network
      | none => none
    | none => none
  | none => none

/-- C10: for every `word_count` other than 12 — 13, 0, even 24's
companion values — `generate_seed_phrase` does not reject the input but
asks the generator for a 24-word mnemonic; only `word_count = 12` yields
12 words. -/
theorem generate_seed_phrase_defaults_to_24 (gen : Nat → Option (List String))
    (hgen : ∀ n m, gen n = some m → m.length = n) (word_count : Nat)
    (hne : word_count ≠ 12) :
    generate_seed_phrase gen word_count = gen 24
      ∧ (∀ m, generate_seed_phrase gen word_count = some m → m.length = 24)
      ∧ (∀ m, generate_seed_phrase gen 12 = some m → m.length = 12) := by
  refine ⟨?_, ?_, ?_⟩
  · simp [generate_seed_phrase, hne]
  · intro m hm
    simp [generate_seed_phrase, hne] at hm
    exact hgen 24 m hm
  · intro m hm
    simp [generate_seed_phrase] at hm
    exact hgen 12 m hm

/-- A mnemonic generator always producing the requested number of words. -/
def demoGen : Nat → Option (List String) := fun n => some (List.replicate n "abandon")

/-- Witness for C10 at `word_count = 13`. -/
theorem generate_seed_phrase_defaults_to_24_witness :
    (13 : Nat) ≠ 12 ∧ generate_seed_phrase demoGen 13 = demoGen 24 :=
  ⟨by decide,
    (generate_seed_phrase_defaults_to_24 demoGen
      (fun n m hm => by
        simp only [demoGen, Option.some.injEq] at hm
        rw [← hm]
        simp) 13 (by decide)).1⟩

/-- C4: migrating a legacy profile (`wallets` present, `wallet_slots`
absent) succeeds; afterwards `needs_migration` is false and a second
`migrate_user_data` run is a no-op returning `False`, so the slot
structure is the same after one run and after two; and a profile already
in slot form (no legacy `wallets` key) is never re-migrated. -/
theorem migration_idempotent (maxSlots : Nat) (n1 n2 : String) (st : Store)
    (uid : String) (ud : UserData) (w : Dict ChainWallet)
    (hud : dget st uid = some ud) (hleg : ud.wallets = some w)
    (hns : ud.wallet_slots = none) :
    (migrate_user_data maxSlots n1 st uid).2 = true
      ∧ needs_migration (migrate_user_data maxSlots n1 st uid).1 uid = false
      ∧ migrate_user_data maxSlots n2 (migrate_user_data maxSlots n1 st uid).1 uid
          = ((migrate_user_data maxSlots n1 st uid).1, false)
      ∧ (∀ (st' : Store) (uid' : String) (ud' : UserData), dget st' uid' = some ud' →
          ud'.wallets = none → migrate_user_data maxSlots n2 st' uid' = (st', false)) := by
  have h1 : migrate_user_data maxSlots n1 st uid
      = (dset st uid (migratedProfile maxSlots n1 w), true) := by
    simp [migrate_user_data, hud, hleg]
  have h2 : dget (dset st uid (migratedProfile maxSlots n1 w)) uid
      = some (migratedProfile maxSlots n1 w) := dget_dset_self st uid _
  refine ⟨by rw [h1], ?_, ?_, ?_⟩
  · rw [h1]
    unfold needs_migration
    rw [h2]
    simp [migratedProfile]
  · rw [h1]
    unfold migrate_user_data
    rw [h2]
    simp [migratedProfile]
  · intro st' uid' ud' hud' hw'
    simp [migrate_user_data, hud', hw']

/-- A legacy chain record. -/
def demoLegacyWallet : ChainWallet :=
  { address := "SoAddrA", private_key := "pkA", derivation_path := "m" }

/-- A legacy profile: only the old `wallets` map. -/
def demoLegacyProfile : UserData := { wallets := some [("SOL", demoLegacyWallet)] }

/-- A store holding one legacy-format user. -/
def demoLegacyStore : Store := [("1", demoLegacyProfile)]

/-- Witness for C4 on the concrete legacy store. -/
theorem migration_idempotent_witness :
    dget demoLegacyStore "1" = some demoLegacyProfile
      ∧ demoLegacyProfile.wallets = some [("SOL", demoLegacyWallet)]
      ∧ demoLegacyProfile.wallet_slots = none
      ∧ migrate_user_data 3 "t2" (migrate_user_data 3 "t1" demoLegacyStore "1").1 "1"
          = ((migrate_user_data 3 "t1" demoLegacyStore "1").1, false) :=
  ⟨by decide, by decide, by decide,
    (migration_idempotent 3 "t1" "t2" demoLegacyStore "1" demoLegacyProfile
      [("SOL", demoLegacyWallet)] (by decide) (by decide) (by decide)).2.2.1⟩

theorem get_wallet_slot_of_not_mig {maxSlots : Nat} {now : String} {st : Store}
    {uid : String} (s : String) (h : needs_migration st uid = false) :
    get_wallet_slot maxSlots now st uid s
      = (st, ((dget st uid).getD {}).wallet_slots.bind (fun ws => dget ws s)) := by
  unfold get_wallet_slot
  rw [get_user_data_of_not_mig h]
  cases hws : ((dget st uid).getD {}).wallet_slots <;> simp [hws]

/-- The slot-form demo fixtures shared by several witnesses: user `1` holds
an `SOL` chain wallet in `wallet1`; `wallet2`/`wallet3` are empty. -/
def demoOldWallet : ChainWallet :=
  { address := "oldAddr", private_key := "oldPk", derivation_path := "oldPath",
    derivation_index := some 0, created_at := some "t0",
    seed_phrase := some "old seed", imported := false }

def demoSlot1 : WalletSlot :=
  { label := none, created_at := some "t0", is_primary := true,
    chains := [("SOL", demoOldWallet)] }

def demoSlots : Dict WalletSlot :=
  [("wallet1", demoSlot1), ("wallet2", {}), ("wallet3", {})]

def demoSlotProfile : UserData :=
  { primary_wallet := some "wallet1", wallet_slots := some demoSlots }

def demoSlotStore : Store := [("1", demoSlotProfile)]

/-- A derivation oracle returning a fixed fresh address. -/
def demoDerive : String → String → Option DeriveInfo :=
  fun _ _ => some { address := "newAddr", private_key := "newPk", derivation_path := "newPath" }

/-- A one-entry pool whose address is unassigned in `demoSlotStore`. -/
def demoPool : List PoolEntry :=
  [{ address := "P1", private_key := "PK1", derivation_path := "PP1" }]

/-- C9 counterexample: on a legacy-format profile, exporting the private
key triggers the auto-migration inside `get_user_data` and rewrites the
profile store — the call is not mutation-free. -/
theorem get_wallet_private_key_migrates_legacy :
    (get_wallet_private_key 3 "t3" demoLegacyStore "1" "SOL" none).1 ≠ demoLegacyStore := by
  decide

/-- C9 (amended): whenever the target user's profile is not in the legacy
format (so no auto-migration fires), `get_wallet_private_key` leaves the
store unchanged and returns exactly the stored
`chains[network]['private_key']` of the resolved slot (or `none` when
absent): a pure lookup.  On a legacy profile the call first performs the
one-time migration (see the counterexample). -/
theorem get_wallet_private_key_pure (maxSlots : Nat) (now : String) (st : Store)
    (uid network : String) (slot_name? : Option String)
    (hmig : needs_migration st uid = false) :
    (get_wallet_private_key maxSlots now st uid network slot_name?).1 = st
      ∧ (get_wallet_private_key maxSlots now st uid network slot_name?).2
          = (((if truthyStr slot_name? then slot_name?
               else ((dget st uid).getD {}).primary_wallet).bind
              (fun s => ((dget st uid).getD {}).wallet_slots.bind
                (fun ws => dget ws s))).bind
             (fun sd => (dget sd.chains network).map (fun cw => cw.private_key))) := by
  have hgu : get_user_data maxSlots now st uid = (st, (dget st uid).getD {}) :=
    get_user_data_of_not_mig hmig
  unfold get_wallet_private_key get_wallet_slot_opt
  by_cases ht : truthyStr slot_name? = true
  · cases slot_name? with
    | none => simp [truthyStr] at ht
    | some s =>
      have hq : get_wallet_slot maxSlots now st uid s
          = (st, ((dget st uid).getD {}).wallet_slots.bind (fun ws => dget ws s)) :=
        get_wallet_slot_of_not_mig s hmig
      cases hb : ((dget st uid).getD {}).wallet_slots.bind (fun ws => dget ws s) with
      | none => simp [ht, hq, hb]
      | some sd =>
        cases hc : dget sd.chains network with
        | none => simp [ht, hq, hb, hc]
        | some cw => simp [ht, hq, hb, hc]
  · have ht' : truthyStr slot_name? = false := by simpa using ht
    cases hp : ((dget st uid).getD {}).primary_wallet with
    | none => simp [ht', get_primary_wallet, hgu, hp]
    | some s =>
      have hq : get_wallet_slot maxSlots now st uid s
          = (st, ((dget st uid).getD {}).wallet_slots.bind (fun ws => dget ws s)) :=
        get_wallet_slot_of_not_mig s hmig
      cases hb : ((dget st uid).getD {}).wallet_slots.bind (fun ws => dget ws s) with
      | none => simp [ht', get_primary_wallet, hgu, hp, hq, hb]
      | some sd =>
        cases hc : dget sd.chains network with
        | none => simp [ht', get_primary_wallet, hgu, hp, hq, hb, hc]
        | some cw => simp [ht', get_primary_wallet, hgu, hp, hq, hb, hc]

/-- Witness for the amended C9 on the slot-form store. -/
theorem get_wallet_private_key_pure_witness :
    needs_migration demoSlotStore "1" = false
      ∧ (get_wallet_private_key 3 "t3" demoSlotStore "1" "SOL" (some "wallet1")).1
          = demoSlotStore :=
  ⟨by decide,
    (get_wallet_private_key_pure 3 "t3" demoSlotStore "1" "SOL" (some "wallet1")
      (by decide)).1⟩

/-- C7: for every profile in slot form, `WalletManager.set_wallet_label`
on an existing slot stores the label truncated to at most 30 characters —
storing `none` instead when the label is the literal `clear`
(case-insensitively) or the empty string — and returns `True`; on a
missing slot it returns `False` and changes nothing. -/
theorem set_wallet_label_spec (maxSlots : Nat) (now : String) (st : Store)
    (uid slot label : String) (ud : UserData) (ws : Dict WalletSlot)
    (hud : dget st uid = some ud) (hws : ud.wallet_slots = some ws) :
    (∀ sd, dget ws slot = some sd →
       set_wallet_label maxSlots now st uid slot label
         = (dset st uid { ud with wallet_slots := some (dset ws slot
             { sd with label :=
                 if pyLower label == "clear" || label == "" then none
                 else some (pySlice label 30) }) }, true)
       ∧ ∀ s, (if pyLower label == "clear" || label == "" then (none : Option String)
               else some (pySlice label 30)) = some s → s.length ≤ 30)
      ∧ (dget ws slot = none →
          set_wallet_label maxSlots now st uid slot label = (st, false)) := by
  have hmig := needs_migration_eq_false hud hws
  have hgs : get_wallet_slot maxSlots now st uid slot
      = (st, ((dget st uid).getD {}).wallet_slots.bind (fun ws => dget ws slot)) :=
    get_wallet_slot_of_not_mig slot hmig
  have hgu : get_user_data maxSlots now st uid = (st, (dget st uid).getD {}) :=
    get_user_data_of_not_mig hmig
  constructor
  · intro sd hsd
    constructor
    · unfold set_wallet_label update_wallet_slot
      simp only [hgs, hud, hws, Option.getD_some, Option.bind_some, hsd, hgu,
        set_user_data]
      by_cases hc : (pyLower label == "clear" || label == "") = true
      · simp [hc, hsd]
      · simp [hc, hsd]
    · intro s hs
      by_cases hc : (pyLower label == "clear" || label == "") = true
      · simp [hc] at hs
      · simp [hc] at hs
        rw [← hs]
        simp only [pySlice, String.length]
        calc (String.mk (label.data.take 30)).data.length
            = (label.data.take 30).length := rfl
          _ ≤ 30 := by
              rw [List.length_take]
              omega
  · intro hnone
    unfold set_wallet_label
    rw [hgs]
    simp [hud, hws, hnone]

/-- The slot as stored after labelling `wallet1` with `My Trading Wallet`. -/
def demoLabeledSlot1 : WalletSlot :=
  { demoSlot1 with
    label :=
      if pyLower "My Trading Wallet" == "clear" || "My Trading Wallet" == "" then none
      else some (pySlice "My Trading Wallet" 30) }

/-- The store as persisted by that labelling call. -/
def demoLabeledStore : Store :=
  dset demoSlotStore "1"
    { demoSlotProfile with
      wallet_slots := some (dset demoSlots "wallet1" demoLabeledSlot1) }

/-- Witness for C7: storing a concrete label on `wallet1`. -/
theorem set_wallet_label_spec_witness :
    dget demoSlotStore "1" = some demoSlotProfile
      ∧ demoSlotProfile.wallet_slots = some demoSlots
      ∧ dget demoSlots "wallet1" = some demoSlot1
      ∧ set_wallet_label 3 "t5" demoSlotStore "1" "wallet1" "My Trading Wallet"
          = (demoLabeledStore, true) :=
  ⟨by decide, by decide, by decide,
    ((set_wallet_label_spec 3 "t5" demoSlotStore "1" "wallet1" "My Trading Wallet"
      demoSlotProfile demoSlots (by decide) (by decide)).1 demoSlot1 (by decide)).1⟩

/-- C3 counterexample: with `wallet1` already holding an `SOL` wallet,
`WalletManager.create_wallet` for the same (slot, chain) does not reject:
it returns a success result and replaces the stored `ChainWallet`. -/
theorem create_wallet_overwrites_existing :
    storedChain demoSlotStore "1" "wallet1" "SOL" = some demoOldWallet
      ∧ ((create_wallet 3 "t1" (some "new seed") demoDerive demoSlotStore "1" "SOL"
          (some "wallet1")).2).isSome = true
      ∧ storedChain (create_wallet 3 "t1" (some "new seed") demoDerive demoSlotStore "1"
          "SOL" (some "wallet1")).1 "1" "wallet1" "SOL" ≠ some demoOldWallet :=
  ⟨by decide, by decide, by decide⟩

/-- C3 (amended): the pool-based wallet-creation path
(`assign_wallet_to_user`, which backs the bot's create-wallet command)
rejects a duplicate (slot, chain): it returns `None` and leaves the store
— hence the existing `ChainWallet` — unchanged.
`WalletManager.create_wallet` performs no such check and overwrites (see
the counterexample). -/
theorem assign_wallet_rejects_duplicate (maxSlots : Nat) (now : String)
    (pool : List PoolEntry) (network : String) (st : Store) (uid slot : String)
    (ud : UserData) (ws : Dict WalletSlot) (sd : WalletSlot) (cw : ChainWallet)
    (hud : dget st uid = some ud) (hws : ud.wallet_slots = some ws)
    (hsd : dget ws slot = some sd) (hcw : dget sd.chains network = some cw) :
    assign_wallet_to_user maxSlots now pool network st uid (some slot)
        = some (st, none)
      ∧ storedChain st uid slot network = some cw := by
  have hmig := needs_migration_eq_false hud hws
  constructor
  · unfold assign_wallet_to_user
    simp [hmig, hud, hws, hsd, dhas, hcw]
  · simp [storedChain, hud, hws, hsd, hcw]

/-- Witness for the amended C3 on the concrete duplicate (wallet1, SOL). -/
theorem assign_wallet_rejects_duplicate_witness :
    dget demoSlots "wallet1" = some demoSlot1
      ∧ dget demoSlot1.chains "SOL" = some demoOldWallet
      ∧ assign_wallet_to_user 3 "t6" demoPool "SOL" demoSlotStore "1" (some "wallet1")
          = some (demoSlotStore, none) :=
  ⟨by decide, by decide,
    (assign_wallet_rejects_duplicate 3 "t6" demoPool "SOL" demoSlotStore "1" "wallet1"
      demoSlotProfile demoSlots demoSlot1 demoOldWallet
      (by decide) (by decide) (by decide) (by decide)).1⟩

/-- The derivation result `demoDerive` always returns. -/
def demoNewInfo : DeriveInfo :=
  { address := "newAddr", private_key := "newPk", derivation_path := "newPath" }

/-- C6 counterexample: a record persisted by the non-import creation path
(`create_wallet` for a fresh user) carries the plaintext generated seed
phrase, with `imported` absent/false. -/
theorem create_wallet_persists_seed_phrase :
    storedChain (create_wallet 3 "t7" (some "fresh seed words") demoDerive [] "9" "SOL"
        (some "wallet1")).1 "9" "wallet1" "SOL"
      = some (created_chain_wallet demoNewInfo "t7" "fresh seed words")
      ∧ (created_chain_wallet demoNewInfo "t7" "fresh seed words").seed_phrase
          = some "fresh seed words"
      ∧ (created_chain_wallet demoNewInfo "t7" "fresh seed words").imported = false :=
  ⟨by decide, by decide, by decide⟩

/-- C6 (amended): the chain record `create_wallet` persists carries the
plaintext generated seed phrase with `imported = False` — non-import
creation also stores the phrase — whereas a record written by the
pool-assignment path (`assign_wallet_to_user`) is exactly the pool row
and carries no seed phrase. -/
theorem wallet_record_seed_phrase_fields (maxSlots : Nat) (now : String)
    (derive : String → String → Option DeriveInfo) (pool : List PoolEntry)
    (st : Store) (uid network slot sp : String) (ud : UserData) (ws : Dict WalletSlot)
    (info : DeriveInfo)
    (hud : dget st uid = some ud) (hws : ud.wallet_slots = some ws)
    (hslot : slot ≠ "") (hder : derive sp network = some info) :
    (storedChain (create_wallet maxSlots now (some sp) derive st uid network
          (some slot)).1 uid slot network
        = some (created_chain_wallet info now sp)
      ∧ (created_chain_wallet info now sp).seed_phrase = some sp
      ∧ (created_chain_wallet info now sp).imported = false)
      ∧ (∀ (sd : WalletSlot) (w : PoolEntry) (st' : Store) (r : Option PoolEntry),
          dget ws slot = some sd → dhas sd.chains network = false →
          get_available_wallet network pool st = some w →
          assign_wallet_to_user maxSlots now pool network st uid (some slot)
            = some (st', r) →
          storedChain st' uid slot network
              = some { address := w.address, private_key := w.private_key,
                       derivation_path := w.derivation_path }
            ∧ ({ address := w.address, private_key := w.private_key,
                 derivation_path := w.derivation_path } : ChainWallet).seed_phrase
                = none) := by
  have hmig := needs_migration_eq_false hud hws
  have hgu : get_user_data maxSlots now st uid = (st, (dget st uid).getD {}) :=
    get_user_data_of_not_mig hmig
  have htr : truthyStr (some slot) = true := by simp [truthyStr, hslot]
  constructor
  · refine ⟨?_, rfl, rfl⟩
    unfold create_wallet
    simp only [htr, if_true, hder, hgu, hud, Option.getD_some, hws, set_user_data]
    by_cases h1 : truthyStr ((dget ws slot).getD {}).created_at = true
    · by_cases h2 : truthyStr ud.primary_wallet = true
      · simp [h1, h2, storedChain, dget_dset_self]
      · simp [h1, h2, storedChain, dget_dset_self]
    · by_cases h2 : truthyStr ud.primary_wallet = true
      · simp [h1, h2, storedChain, dget_dset_self]
      · simp [h1, h2, storedChain, dget_dset_self]
  · intro sd w st' r hsd hnodup hw hassign
    have hhu : dhas st uid = true := dhas_of_dget hud
    have hhs : dhas ws slot = true := dhas_of_dget hsd
    unfold assign_wallet_to_user at hassign
    by_cases h3 : sd.chains.isEmpty = true
    · simp only [hmig, Bool.false_eq_true, if_false, hud, hws, Option.getD_some, hsd,
        hnodup, hw, hhu, hhs, if_true, h3, set_user_data] at hassign
      obtain ⟨h4, h5⟩ := Prod.mk.injEq .. ▸ (Option.some.injEq .. ▸ hassign)
      rw [← h4]
      simp [storedChain, dget_dset_self]
    · simp only [hmig, Bool.false_eq_true, if_false, hud, hws, Option.getD_some, hsd,
        hnodup, hw, hhu, hhs, if_true, h3, set_user_data] at hassign
      obtain ⟨h4, h5⟩ := Prod.mk.injEq .. ▸ (Option.some.injEq .. ▸ hassign)
      rw [← h4]
      simp [storedChain, dget_dset_self]

/-- Witness for the amended C6: creating into the empty `wallet2`. -/
theorem wallet_record_seed_phrase_fields_witness :
    ("wallet2" : String) ≠ ""
      ∧ demoDerive "seed words here" "SOL" = some demoNewInfo
      ∧ storedChain (create_wallet 3 "t8" (some "seed words here") demoDerive demoSlotStore
          "1" "SOL" (some "wallet2")).1 "1" "wallet2" "SOL"
          = some (created_chain_wallet demoNewInfo "t8" "seed words here") :=
  ⟨by decide, by decide,
    ((wallet_record_seed_phrase_fields 3 "t8" demoDerive demoPool demoSlotStore "1" "SOL"
      "wallet2" "seed words here" demoSlotProfile demoSlots demoNewInfo
      (by decide) (by decide) (by decide) (by decide)).1).1⟩

/-- The ordered list of slot names a profile's `wallet_slots` map holds,
when the profile and the map exist. -/
def userSlotKeys (st : Store) (uid : String) : Option (List String) :=
  match dget st uid with
  | some ud => ud.wallet_slots.map dkeys
  | none => none

/-- C8 counterexample: `assign_wallet_to_user` invoked with the unknown
slot name `wallet9` adds a fourth slot key to a profile configured for
`max_slots = 3`. -/
theorem assign_adds_slot_key :
    userSlotKeys demoSlotStore "1" = some ["wallet1", "wallet2", "wallet3"]
      ∧ (assign_wallet_to_user 3 "t9" demoPool "SOL" demoSlotStore "1"
          (some "wallet9")).map (fun r => userSlotKeys r.1 "1")
          = some (some ["wallet1", "wallet2", "wallet3", "wallet9"]) :=
  ⟨by decide, by decide⟩

/-- C8 (amended): slot keys are never removed — deletion only resets a
slot's contents — and the key set is exactly `wallet1 … walletN` after
initialization and after migration; `update_wallet_slot`,
`assign_wallet_to_user` and `delete_wallet_slot` preserve the key set
whenever the named slot already exists.  (An operation invoked with an
unknown slot name adds a key: see the counterexample.) -/
theorem slot_keys_preserved (maxSlots : Nat) (now : String) (pool : List PoolEntry)
    (network : String) (st : Store) (uid slot : String) (ud : UserData)
    (ws : Dict WalletSlot) (sd : WalletSlot)
    (hud : dget st uid = some ud) (hws : ud.wallet_slots = some ws)
    (hsd : dget ws slot = some sd) :
    dkeys (initialize_wallet_slots maxSlots) = (List.range' 1 maxSlots).map slotName
      ∧ (∀ (st'' : Store) (uid'' : String) (ud'' : UserData) (w : Dict ChainWallet),
          1 ≤ maxSlots → dget st'' uid'' = some ud'' → ud''.wallets = some w →
          userSlotKeys (migrate_user_data maxSlots now st'' uid'').1 uid''
            = some ((List.range' 1 maxSlots).map slotName))
      ∧ (∀ sd' : WalletSlot,
          userSlotKeys (update_wallet_slot maxSlots now st uid slot sd').1 uid
            = userSlotKeys st uid)
      ∧ (∀ (st' : Store) (r : Option PoolEntry),
          assign_wallet_to_user maxSlots now pool network st uid (some slot)
            = some (st', r) → userSlotKeys st' uid = userSlotKeys st uid)
      ∧ (∀ (st' : Store) (b : Bool),
          delete_wallet_slot maxSlots now st uid slot = some (st', b) →
          userSlotKeys st' uid = userSlotKeys st uid) := by
  have hmig := needs_migration_eq_false hud hws
  have hgu : get_user_data maxSlots now st uid = (st, (dget st uid).getD {}) :=
    get_user_data_of_not_mig hmig
  have hhu : dhas st uid = true := dhas_of_dget hud
  have hhs : dhas ws slot = true := dhas_of_dget hsd
  have hw1name : slotName 1 = "wallet1" := by decide
  refine ⟨?_, ?_, ?_, ?_, ?_⟩
  · simp [initialize_wallet_slots, dkeys, List.map_map, Function.comp]
  · intro st'' uid'' ud'' w hm hud'' hw''
    obtain ⟨k, rfl⟩ : ∃ k, maxSlots = k + 1 := ⟨maxSlots - 1, by omega⟩
    simp [migrate_user_data, hud'', hw'', userSlotKeys, dget_dset_self, migratedProfile,
      initEmptySlots, dkeys, List.map_map, Function.comp, List.range'_succ, hw1name]
  · intro sd'
    unfold update_wallet_slot
    simp only [hgu, hud, Option.getD_some, hws, set_user_data]
    simp only [userSlotKeys, dget_dset_self, hud, hws, Option.map_some']
    rw [dkeys_dset_of_dhas _ _ _ hhs]
  · intro st' r hassign
    unfold assign_wallet_to_user at hassign
    simp only [hmig, Bool.false_eq_true, if_false, hud, hws, Option.getD_some,
      hsd] at hassign
    by_cases hdup : dhas sd.chains network = true
    · simp only [hdup, if_true] at hassign
      obtain ⟨h4, h5⟩ := Prod.mk.injEq .. ▸ (Option.some.injEq .. ▸ hassign)
      rw [← h4]
    · simp only [hdup, Bool.false_eq_true, if_false] at hassign
      cases hw : get_available_wallet network pool st with
      | none =>
        simp only [hw] at hassign
        obtain ⟨h4, h5⟩ := Prod.mk.injEq .. ▸ (Option.some.injEq .. ▸ hassign)
        rw [← h4]
      | some w =>
        by_cases h3 : sd.chains.isEmpty = true
        · simp only [hw, hhu, if_true, hud, hws, hsd, Option.getD_some, hhs, h3,
            set_user_data] at hassign
          obtain ⟨h4, h5⟩ := Prod.mk.injEq .. ▸ (Option.some.injEq .. ▸ hassign)
          rw [← h4]
          simp only [userSlotKeys, dget_dset_self, hud, hws, Option.map_some']
          rw [dkeys_dset_of_dhas _ _ _ hhs]
        · simp only [hw, hhu, if_true, hud, hws, hsd, Option.getD_some, hhs, h3,
            Bool.false_eq_true, if_false, set_user_data] at hassign
          obtain ⟨h4, h5⟩ := Prod.mk.injEq .. ▸ (Option.some.injEq .. ▸ hassign)
          rw [← h4]
          simp only [userSlotKeys, dget_dset_self, hud, hws, Option.map_some']
          rw [dkeys_dset_of_dhas _ _ _ hhs]
  · intro st' b hdel
    unfold delete_wallet_slot at hdel
    simp only [hgu, hud, Option.getD_some, hws, hhs, if_true, set_user_data] at hdel
    by_cases hprim : (ud.primary_wallet == some slot) = true
    · simp only [hprim, if_true] at hdel
      cases hw1 : dget (dset ws slot ({} : WalletSlot)) "wallet1" with
      | none => simp [hw1] at hdel
      | some w1 =>
        simp only [hw1] at hdel
        obtain ⟨h4, h5⟩ := Prod.mk.injEq .. ▸ (Option.some.injEq .. ▸ hdel)
        rw [← h4]
        have hh1 : dhas (dset ws slot ({} : WalletSlot)) "wallet1" = true :=
          dhas_of_dget hw1
        simp only [userSlotKeys, dget_dset_self, hud, hws, Option.map_some']
        rw [dkeys_dset_of_dhas _ _ _ hh1, dkeys_dset_of_dhas _ _ _ hhs]
    · simp only [hprim, Bool.false_eq_true, if_false] at hdel
      obtain ⟨h4, h5⟩ := Prod.mk.injEq .. ▸ (Option.some.injEq .. ▸ hdel)
      rw [← h4]
      simp only [userSlotKeys, dget_dset_self, hud, hws, Option.map_some']
      rw [dkeys_dset_of_dhas _ _ _ hhs]

/-- Witness for the amended C8: updating the existing `wallet1` keeps the
key set. -/
theorem slot_keys_preserved_witness :
    dget demoSlotStore "1" = some demoSlotProfile
      ∧ dget demoSlots "wallet1" = some demoSlot1
      ∧ userSlotKeys (update_wallet_slot 3 "ta" demoSlotStore "1" "wallet1" demoSlot1).1 "1"
          = userSlotKeys demoSlotStore "1" :=
  ⟨by decide, by decide,
    (slot_keys_preserved 3 "ta" demoPool "SOL" demoSlotStore "1" "wallet1"
      demoSlotProfile demoSlots demoSlot1 (by decide) (by decide) (by decide)).2.2.1
      demoSlot1⟩

/-- `addr` is held by some profile's legacy `wallets[network]` record. -/
def LegacyHolds (network addr : String) (st : Store) : Prop :=
  ∃ p ∈ st, ∃ w, p.2.wallets = some w ∧ ∃ cw, dget w network = some cw ∧ cw.address = addr

/-- `addr` is held by some `(user, slot)` pair: a
`wallet_slots[slot].chains[network]` record of some profile. -/
def SlotHolds (network addr : String) (st : Store) : Prop :=
  ∃ p ∈ st, ∃ ws, p.2.wallet_slots = some ws ∧
    ∃ q ∈ ws, ∃ cw, dget q.2.chains network = some cw ∧ cw.address = addr

theorem mem_chainAddr {network addr : String} {c : Dict ChainWallet} :
    addr ∈ chainAddr network c ↔ ∃ cw, dget c network = some cw ∧ cw.address = addr := by
  unfold chainAddr
  cases h : dget c network <;> simp [h, eq_comm]

theorem mem_profile_assigned {network addr : String} {ud : UserData} :
    addr ∈ profile_assigned network ud ↔
      ((∃ w, ud.wallets = some w ∧ ∃ cw, dget w network = some cw ∧ cw.address = addr)
       ∨ (∃ ws, ud.wallet_slots = some ws ∧
            ∃ q ∈ ws, ∃ cw, dget q.2.chains network = some cw ∧ cw.address = addr)) := by
  unfold profile_assigned
  cases hw : ud.wallets <;> cases hws : ud.wallet_slots <;>
    simp [List.mem_flatMap, mem_chainAddr]

theorem mem_assigned_addresses {network addr : String} {st : Store} :
    addr ∈ assigned_addresses network st ↔
      LegacyHolds network addr st ∨ SlotHolds network addr st := by
  unfold assigned_addresses LegacyHolds SlotHolds
  rw [List.mem_flatMap]
  constructor
  · rintro ⟨p, hp, hmem⟩
    rcases mem_profile_assigned.1 hmem with h | h
    · exact Or.inl ⟨p, hp, h⟩
    · exact Or.inr ⟨p, hp, h⟩
  · rintro (⟨p, hp, h⟩ | ⟨p, hp, h⟩)
    · exact ⟨p, hp, mem_profile_assigned.2 (Or.inl h)⟩
    · exact ⟨p, hp, mem_profile_assigned.2 (Or.inr h)⟩

theorem str_contains_iff {l : List String} {a : String} : l.contains a = true ↔ a ∈ l := by
  simp [List.contains]

theorem find?_eq_some_split {α : Type} (p : α → Bool) (l : List α) (a : α)
    (h : l.find? p = some a) :
    ∃ l1 l2, l = l1 ++ a :: l2 ∧ (∀ x ∈ l1, p x = false) ∧ p a = true := by
  induction l with
  | nil => simp at h
  | cons x xs ih =>
    cases hx : p x with
    | true =>
      rw [List.find?_cons_of_pos _ hx] at h
      injection h with h
      subst h
      exact ⟨[], xs, rfl, by simp, hx⟩
    | false =>
      rw [List.find?_cons_of_neg _ (by simp [hx])] at h
      obtain ⟨l1, l2, rfl, hall, ha⟩ := ih h
      refine ⟨x :: l1, l2, rfl, ?_, ha⟩
      intro y hy
      rcases List.mem_cons.1 hy with rfl | hy
      · exact hx
      · exact hall y hy

/-- C2: `get_available_wallet` returns the first pool entry whose address
is held neither by a legacy `wallets[chain]` record nor by any
`wallet_slots[*].chains[chain]` record (every earlier pool entry is so
held), returns `None` exactly when every pool entry's address is already
assigned, and consequently an allocated address is never one already held
by an existing (user, slot) pair. -/
theorem pool_allocation_first_unassigned (network : String) (pool : List PoolEntry)
    (st : Store) :
    (∀ e, get_available_wallet network pool st = some e →
       e ∈ pool
       ∧ ¬ (LegacyHolds network e.address st ∨ SlotHolds network e.address st)
       ∧ ∃ l1 l2, pool = l1 ++ e :: l2
           ∧ ∀ e' ∈ l1, (LegacyHolds network e'.address st ∨ SlotHolds network e'.address st))
      ∧ (get_available_wallet network pool st = none ↔
          ∀ e ∈ pool, (LegacyHolds network e.address st ∨ SlotHolds network e.address st))
      ∧ (∀ e, get_available_wallet network pool st = some e →
          ¬ SlotHolds network e.address st) := by
  have hpt : ∀ e : PoolEntry,
      (!((assigned_addresses network st).contains e.address)) = true ↔
        ¬ (LegacyHolds network e.address st ∨ SlotHolds network e.address st) := by
    intro e
    rw [Bool.not_eq_true', ← Bool.not_eq_true]
    rw [str_contains_iff, mem_assigned_addresses]
  have hpf : ∀ e : PoolEntry,
      (!((assigned_addresses network st).contains e.address)) = false ↔
        (LegacyHolds network e.address st ∨ SlotHolds network e.address st) := by
    intro e
    rw [Bool.not_eq_false', str_contains_iff, mem_assigned_addresses]
  have hmain : ∀ e, get_available_wallet network pool st = some e →
      e ∈ pool
      ∧ ¬ (LegacyHolds network e.address st ∨ SlotHolds network e.address st)
      ∧ ∃ l1 l2, pool = l1 ++ e :: l2
          ∧ ∀ e' ∈ l1, (LegacyHolds network e'.address st ∨ SlotHolds network e'.address st) := by
    intro e he
    obtain ⟨l1, l2, hsplit, hall, ha⟩ := find?_eq_some_split _ _ _ he
    refine ⟨List.mem_of_find?_eq_some he, (hpt e).1 ha, l1, l2, hsplit, ?_⟩
    intro e' he'
    exact (hpf e').1 (hall e' he')
  refine ⟨hmain, ?_, ?_⟩
  · unfold get_available_wallet
    rw [List.find?_eq_none]
    constructor
    · intro h e he
      have := h e he
      rw [Bool.not_eq_true] at this
      exact (hpf e).1 (by simpa using this)
    · intro h e he
      rw [Bool.not_eq_true, (hpf e)]
      exact h e he
  · intro e he
    exact fun hs => ((hmain e he).2.1) (Or.inr hs)

/-- A two-entry pool whose first address is already held by `wallet1` of
user `1` in `demoSlotStore` and whose second is free. -/
def demoPool2 : List PoolEntry :=
  [{ address := "oldAddr", private_key := "PKo", derivation_path := "PPo" },
   { address := "P2", private_key := "PK2", derivation_path := "PP2" }]

/-- Witness for C2: the allocator skips the assigned first entry and
returns the second. -/
theorem pool_allocation_first_unassigned_witness :
    get_available_wallet "SOL" demoPool2 demoSlotStore
        = some { address := "P2", private_key := "PK2", derivation_path := "PP2" }
      ∧ ({ address := "P2", private_key := "PK2", derivation_path := "PP2" } : PoolEntry)
          ∈ demoPool2 :=
  ⟨by decide,
    ((pool_allocation_first_unassigned "SOL" demoPool2 demoSlotStore).1 _ (by decide)).1⟩
